import Mathlib

/-!
# Verification of the cherrymusic database versioning engine

Shallow embedding of `cherrymusicserver/database/{defs,sql,update,__init__}.py`:
the declarative schema-definition model, the table/index reconciliation
descriptors, the per-database version `Updater`, and the `DatabaseController`
façade.  Pure functions of the source become Lean functions; the mutable
SQLite store becomes an explicit `Store` value threaded through the
operations; SQL statements issued by the code become the corresponding
transformations of `Store`.  Transition scripts (`Transition.sql`) are opaque
SQL text in the source; the model records their execution as trace events and
does not interpret their data effect.
-/

namespace CherryMusic

/-! Section: Columns (sql.py, class Column)

`Column.__new__` lowercases the name and normalizes the datatype; the model
stores already-normalized names (lowercase) and datatypes (`INTEGER`, `TEXT`,
`BLOB`, `REAL`).  In the source, `pkey` is the empty string (falsy), `True`
or the string `AUTOINCREMENT`. -/

/-- ASCII lowercasing, as `str.lower` acts on the ASCII identifiers used for
column names. -/
def lowerChar (c : Char) : Char :=
  if 65 ≤ c.toNat ∧ c.toNat ≤ 90 then Char.ofNat (c.toNat + 32) else c

/-- Source `Column.__normalize_name`: `name.lower()`. -/
def pyLower (s : String) : String :=
  String.mk (s.toList.map lowerChar)

inductive PKey where
  | nokey
  | plain
  | auto
deriving DecidableEq, Repr

structure Column where
  name : String
  type : String
  notnull : Bool
  default : Option String
  pkey : PKey
  unique : Bool
deriving DecidableEq, Repr

/-- Normalized column tuple (`Column._NormTuple`): notnull and pkey collapsed
to 0/1, string defaults stripped of whitespace and outer parentheses. -/
structure NormColumn where
  name : String
  type : String
  notnull : Nat
  default : Option String
  pkey : Nat
deriving DecidableEq, Repr

/-- Normalization of defaults in `Column.normal`: strip whitespace, then
leading open parens, then trailing close parens. -/
def stripDefault (s : String) : String :=
  String.mk ((s.trim.toList.dropWhile (· = '(')).reverse.dropWhile (· = ')')).reverse

def Column.normal (c : Column) : NormColumn :=
  { name := c.name
    type := c.type
    notnull := if c.notnull then 1 else 0
    default := c.default.map stripDefault
    pkey := if c.pkey = PKey.nokey then 0 else 1 }

/-! Section: Definition model (defs.py)

`Property(name, type, notnull, default, unique)` and `Id(name, auto)` are the
two kinds of values `PropertyDefinition` accepts. -/

inductive DbProp where
  | property (name : String) (type : String) (notnull : Bool)
      (default : Option String) (unique : Bool)
  | id (name : String) (auto : Bool)
deriving DecidableEq, Repr

/-- Source `Column.from_property`: an `Id` becomes a notnull INTEGER primary-key
column (`AUTOINCREMENT` when `auto`); a `Property` carries its fields over
with no primary key. -/
def Column.from_property : DbProp → Column
  | DbProp.id name auto =>
      { name := pyLower name, type := "INTEGER", notnull := true,
        default := none, pkey := if auto then PKey.auto else PKey.plain,
        unique := false }
  | DbProp.property name ty notnull default unique =>
      { name := pyLower name, type := ty, notnull := notnull,
        default := default, pkey := PKey.nokey, unique := unique }

/-- Source `IndexDefinition` (defs.py): `on_type`, `keys`, `unique`, optional `name`. -/
structure IndexDef where
  on_type : String
  keys : List String
  unique : Bool
  name : Option String
deriving DecidableEq, Repr

/-- Normalized index tuple (`IndexDescriptor.Normal`). -/
structure IndexNormal where
  name : String
  table : String
  columns : List String
  unique : Bool
deriving DecidableEq, Repr

/-- Source `IndexDescriptor._create_name`: typename, table and columns joined
with underscores, where the typename is `uidx`/`idx` by uniqueness. -/
def indexAutoName (d : IndexDef) : String :=
  String.intercalate "_" (((if d.unique then "uidx" else "idx") :: d.on_type :: d.keys))

/-- Source `IndexDescriptor.from_def` followed by `.normal`: the name of the
descriptor is `name or self._create_name()`, so a missing or empty declared
name falls back to the auto-generated one. -/
def IndexDef.normal (d : IndexDef) : IndexNormal :=
  { name := match d.name with
      | some s => if s = "" then indexAutoName d else s
      | none => indexAutoName d
    table := d.on_type
    columns := d.keys
    unique := d.unique }

/-- Source `TransitionDefinition`: `sql` script (optional), `prompt` flag, `reason`. -/
structure Transition where
  sql : Option String
  prompt : Bool
  reason : String
deriving DecidableEq, Repr

/-- Source `DatabaseVersionDefinition`: named types (ordered property lists),
indexes, optional transition. -/
structure VersionDef where
  types : List (String × List DbProp)
  indexes : List IndexDef
  transition : Option Transition
deriving DecidableEq, Repr

/-- Source `DatabaseDefinition`: map version-number → version definition, modeled as
an association list in dict order. -/
structure DbDef where
  versions : List (Nat × VersionDef)
deriving DecidableEq, Repr

def DbDef.versionKeys (d : DbDef) : List Nat :=
  d.versions.map Prod.fst

def DbDef.lookup (d : DbDef) (v : Nat) : Option VersionDef :=
  (d.versions.find? (fun p => p.fst = v)).map Prod.snd

/-- Source `self.desc.versions[vnum]`; only ever used at declared keys (a missing key
would be a `KeyError` in the source). -/
def DbDef.version! (d : DbDef) (v : Nat) : VersionDef :=
  (d.lookup v).getD { types := [], indexes := [], transition := none }

/-! Section: The live store

A `Store` models the state of one SQLite database: user tables (name plus
live column layout), user indexes (as normalized tuples, the view
`IndexDescriptor.fetch_normal_existing` reflects), and the `_meta_version`
tracking table (existence flag plus the `version` column of its rows; the
`version` column is nullable, `_setversion(None)` inserts a NULL). -/

structure Table where
  name : String
  columns : List Column
deriving DecidableEq, Repr

structure Store where
  tables : List Table
  indexes : List IndexNormal
  metaExists : Bool
  metaRows : List (Option Nat)
deriving DecidableEq, Repr

/-- SQL `MAX(version)`: maximum of the non-NULL values, NULL when none. -/
def maxVersion (rows : List (Option Nat)) : Option Nat :=
  (rows.filterMap id).foldl
    (fun acc v => match acc with
      | none => some v
      | some m => some (Nat.max m v))
    none

/-- Source `Updater._version`: `SELECT MAX(version) FROM _meta_version` (raises if
the tracking table is missing; the model returns `none` there, and every
operation ensures the table first). -/
def storeVersion (s : Store) : Option Nat :=
  if s.metaExists then maxVersion s.metaRows else none

/-- Source `Updater._setversion`: append-only INSERT of a tracking row. -/
def setversion (v : Option Nat) (s : Store) : Store :=
  { s with metaRows := s.metaRows ++ [v] }

/-- Content test of `Updater._init_meta`: any `sqlite_master` entry other
than the tracking table and sqlite-internal objects.  User tables and
indexes are the modeled catalog entries. -/
def hasUserContent (s : Store) : Bool :=
  !s.tables.isEmpty || !s.indexes.isEmpty

/-! Section: Table reconciliation (sql.py, class TableDescriptor)

`createOrAlterTable`: when the table exists, `_check_existing_columns` only
logs (live columns absent from the definition, and normal-form mismatches,
are reported but never touched), and `_add_missing_columns` issues
`ALTER TABLE ... ADD COLUMN` for each declared column whose name is absent
from the live layout (appending it); when the table does not exist, it is
created verbatim from the declared columns. -/

def addMissingColumns (existing declared : List Column) : List Column :=
  existing ++ declared.filter (fun c => !(existing.any (fun e => e.name = c.name)))

/-- A `TableDescriptor` is a table name plus its declared columns
(`Updater._types_to_tables` builds one per type via `Column.from_property`). -/
def typesToTables (types : List (String × List DbProp)) : List Table :=
  types.map (fun p => { name := p.fst, columns := p.snd.map Column.from_property })

/-- Source `TableDescriptor.createOrAlterTable` acting on the store. -/
def createOrAlterTable (t : Table) (s : Store) : Store :=
  if s.tables.any (fun u => u.name = t.name) then
    { s with tables := s.tables.map (fun u =>
        if u.name = t.name then
          { u with columns := addMissingColumns u.columns t.columns }
        else u) }
  else
    { s with tables := s.tables ++ [t] }

/-! Section: Index reconciliation (update.py `Updater._autoindexes`, sql.py
`IndexDescriptor`) -/

/-- First pass of `_autoindexes`: `for idx in defined: if not idx.exists:
idx.create` — `exists` checks membership of the normal tuple among the
fetched existing normals, `create` adds the index. -/
def createMissingIndexes (store : List IndexNormal) (defined : List IndexNormal) :
    List IndexNormal :=
  defined.foldl (fun st i => if i ∈ st then st else st ++ [i]) store

/-- Second pass of `_autoindexes`: fetch the normal tuples now existing, and
for each one not among the defined normals, `DROP INDEX` it by name. -/
def dropUndefinedIndexes (store : List IndexNormal) (defined : List IndexNormal) :
    List IndexNormal :=
  (store.filter (fun i => decide (i ∉ defined))).foldl
    (fun st i => st.filter (fun j => decide (j.name ≠ i.name))) store

/-- Declared index normals of a version (`Updater._indexes` via
`IndexDescriptor.from_def`, normalized). -/
def definedIndexNormals (d : DbDef) (v : Nat) : List IndexNormal :=
  (d.version! v).indexes.map IndexDef.normal

/-- Source `Updater._autoindexes` acting on the store. -/
def autoindexes (d : DbDef) (v : Nat) (s : Store) : Store :=
  let defined := definedIndexNormals d v
  { s with indexes := dropUndefinedIndexes (createMissingIndexes s.indexes defined) defined }

/-- Source `Updater._autotables`: `createOrAlterTable` for each table of the version. -/
def autotables (d : DbDef) (v : Nat) (s : Store) : Store :=
  (typesToTables (d.version! v).types).foldl (fun st t => createOrAlterTable t st) s

/-- Source `Updater._autoupdate_within_version`: tables then indexes, one transaction. -/
def autoupdateWithinVersion (d : DbDef) (v : Nat) (s : Store) : Store :=
  autoindexes d v (autotables d v s)

/-! Section: Version bookkeeping (update.py) -/

/-- Source `Updater._target`: `max(int(v) for v in self.desc.versions)`.  Only used
for definitions with at least one version (the source raises on an empty
map); since version numbers are naturals, the fold from 0 agrees with `max`
on every nonempty key list. -/
def target (d : DbDef) : Nat :=
  d.versionKeys.foldl Nat.max 0

/-- The lower bound `(self._version or -1) + 1` of `_missing_versions`.
Python `or` takes the right operand when the left is falsy, and both `None`
and `0` are falsy, so a stamped version `0` also yields `-1 + 1 = 0`. -/
def missingLowerBound : Option Nat → Nat
  | none => 0
  | some 0 => 0
  | some v => v + 1

/-- Key list of `Updater._missing_versions`: declared version numbers `k`
with `_min ≤ k ≤ _max`, sorted ascending. -/
def missingVersionKeys (d : DbDef) (ver : Option Nat) : List Nat :=
  (d.versionKeys.filter
    (fun k => decide (missingLowerBound ver ≤ k ∧ k ≤ target d))).insertionSort (· ≤ ·)

/-- Source `Updater._transitions`: empty when the version is unset, otherwise the
non-`None` transitions of the missing versions. -/
def transitionsOf (d : DbDef) (ver : Option Nat) : List Transition :=
  match ver with
  | none => []
  | some _ => (missingVersionKeys d ver).filterMap (fun k => (d.version! k).transition)

/-- The prompt reasons collected by `Updater.agreed`. -/
def promptsOf (d : DbDef) (ver : Option Nat) : List String :=
  ((transitionsOf d ver).filter (fun t => t.prompt)).map (fun t => t.reason)

/-- Source `Updater.agreed`: `not prompts or _get_user_consent(prompts)` for a given
consent oracle. -/
def agreed (d : DbDef) (consent : List String → Bool) (ver : Option Nat) : Bool :=
  (promptsOf d ver).isEmpty || consent (promptsOf d ver)

/-- Source `_get_user_consent` is reached only when the prompt list is nonempty
(short-circuit of `not prompts or ...`). -/
def consentRequested (d : DbDef) (ver : Option Nat) : Bool :=
  !(promptsOf d ver).isEmpty

/-- Source `Updater.needed`: version unset or below the target. -/
def needed (d : DbDef) (s : Store) : Bool :=
  match storeVersion s with
  | none => true
  | some v => decide (v < target d)

/-! Section: Construction (`Updater.__init__` / `_init_meta`) -/

/-- Source `Updater._init_meta`: read the user content of `sqlite_master`, ensure
the tracking table, and stamp version 0 when content exists and
`not self._version` — Python falsiness, satisfied both by `None` and by `0`. -/
def initMeta (s : Store) : Store :=
  let s1 := if s.metaExists then s else { s with metaExists := true, metaRows := [] }
  if hasUserContent s then
    if storeVersion s1 = none ∨ storeVersion s1 = some 0 then
      setversion (some 0) s1
    else s1
  else s1

/-- Source `Updater.__init__` after `_init_meta`: when a version is stamped, run the
within-version reconciliation (the subsequent `_verify_version` only asserts
and changes no state). -/
def updaterConstruct (d : DbDef) (s : Store) : Store :=
  let s1 := initMeta s
  match storeVersion s1 with
  | none => s1
  | some v => autoupdateWithinVersion d v s1

/-! Section: Running updates (`Updater.run`) -/

/-- Observable actions of a run, in execution order. -/
inductive Event where
  | transition (vnum : Nat) (sql : String)
  | reconcileTables (vnum : Nat)
  | reconcileIndexes (vnum : Nat)
  | stamp (vnum : Nat)
  | verify (vnum : Nat)
deriving DecidableEq, Repr

/-- Events of `_update_to_version(vnum)` followed by `_verify_version(vnum)`:
`_make_transition` executes the script only `if transition and
transition.sql`, then tables, indexes, stamp, verify. -/
def versionBlock (d : DbDef) (vnum : Nat) : List Event :=
  (match (d.version! vnum).transition with
    | some t => match t.sql with
      | some sql => [Event.transition vnum sql]
      | none => []
    | none => []) ++
  [Event.reconcileTables vnum, Event.reconcileIndexes vnum,
   Event.stamp vnum, Event.verify vnum]

/-- The versions `run()` passes to `_update_to_version`, in order: the
missing versions when a version is stamped; the jumpstart path handles an
unset version without per-version updates. -/
def runVersionOrder (d : DbDef) (ver : Option Nat) : List Nat :=
  match ver with
  | none => []
  | some _ => missingVersionKeys d ver

/-- Event trace of `Updater.run`: jumpstart reconciles and stamps the target
directly; the incremental path emits one `versionBlock` per missing version. -/
def runTrace (d : DbDef) (ver : Option Nat) : List Event :=
  match ver with
  | none => [Event.reconcileTables (target d), Event.reconcileIndexes (target d),
             Event.stamp (target d), Event.verify (target d)]
  | some _ => (runVersionOrder d ver).flatMap (fun k => versionBlock d k)

/-- State effect of `_update_to_version` (the data effect of the opaque
transition script is not interpreted; see the module docstring). -/
def updateToVersion (d : DbDef) (vnum : Nat) (s : Store) : Store :=
  setversion (some vnum) (autoindexes d vnum (autotables d vnum s))

/-- State effect of `_jump_to_version`. -/
def jumpToVersion (d : DbDef) (vnum : Nat) (s : Store) : Store :=
  setversion (some vnum) (autoindexes d vnum (autotables d vnum s))

/-- State effect of `Updater.run`. -/
def runStore (d : DbDef) (s : Store) : Store :=
  match storeVersion s with
  | none => jumpToVersion d (target d) s
  | some _ => (missingVersionKeys d (storeVersion s)).foldl
      (fun st k => updateToVersion d k st) s

/-! Section: Reset (`Updater.reset`) -/

/-- Table names declared by a version (`Updater._tables`). -/
def tablesOfVersion (d : DbDef) (v : Nat) : List String :=
  (d.version! v).types.map Prod.fst

/-- Table names declared across all versions (the `None is version` branch of
`reset`). -/
def tablesOfAllVersions (d : DbDef) : List String :=
  d.versions.foldl (fun acc p => acc ++ p.snd.types.map Prod.fst) []

/-- Source `Updater.reset`: when the stamped version is unset, collect the tables of
every version, otherwise only those of the stamped version; drop them (SQLite
drops their indexes with them), drop and recreate the tracking table, and
insert a NULL version row — all in one IMMEDIATE transaction. -/
def reset (d : DbDef) (s : Store) : Store :=
  let tabs := match storeVersion s with
    | none => tablesOfAllVersions d
    | some v => tablesOfVersion d v
  { tables := s.tables.filter (fun t => decide (t.name ∉ tabs))
    indexes := s.indexes.filter (fun i => decide (i.table ∉ tabs))
    metaExists := true
    metaRows := [none] }

/-! Section: Controller (`__init__.py`, class DatabaseController) -/

/-- Outcome of `DatabaseController.ensure_requirements` for one database:
the returned boolean, the resulting store, whether `update.run()` was
invoked, and whether `_get_user_consent` was reached. -/
structure EnsureResult where
  met : Bool
  store : Store
  ranUpdate : Bool
  askedConsent : Bool
deriving DecidableEq, Repr

/-- Source `DatabaseController.ensure_requirements` for a single named database:
`_create_updater` constructs the `Updater` (running its construction-time
initialization and reconciliation), then `if update.needed: if not
(autoconsent or update.agreed): return False; update.run()`, finally
`return True`.  `autoconsent or update.agreed` short-circuits, so `agreed`
(and hence the consent prompt) is never evaluated under autoconsent; inside
`agreed`, `not prompts or _get_user_consent(prompts)` short-circuits, so
consent is requested exactly when the prompt list is nonempty. -/
def ensure_requirements (d : DbDef) (autoconsent : Bool)
    (consent : List String → Bool) (s : Store) : EnsureResult :=
  let s1 := updaterConstruct d s
  let ver := storeVersion s1
  if needed d s1 then
    let asked := !autoconsent && consentRequested d ver
    if autoconsent || agreed d consent ver then
      { met := true, store := runStore d s1, ranUpdate := true, askedConsent := asked }
    else
      { met := false, store := s1, ranUpdate := false, askedConsent := asked }
  else
    { met := true, store := s1, ranUpdate := false, askedConsent := false }

/-- Dict assignment `self.defs[name] = value`: replace an existing binding or
append a new one. -/
def setItem (r : List (String × DbDef)) (k : String) (v : DbDef) :
    List (String × DbDef) :=
  if r.any (fun p => p.fst = k) then
    r.map (fun p => if p.fst = k then (k, v) else p)
  else r ++ [(k, v)]

/-- Source `DatabaseController.require`: compute `dupekeys = set(self.defs) &
set(defdict)` and raise `ValueError` before any assignment when it is
nonempty; otherwise assign every entry.  The first component is the raised
error (the duplicate keys), the second the registry afterwards. -/
def require (registry defdict : List (String × DbDef)) :
    Option (List String) × List (String × DbDef) :=
  let dupekeys := (registry.map Prod.fst).filter
    (fun k => decide (k ∈ defdict.map Prod.fst))
  if dupekeys.isEmpty then
    (none, defdict.foldl (fun r p => setItem r p.fst p.snd) registry)
  else
    (some dupekeys, registry)

/-! Section: Definition-construction validation (defs.py)

Building the property list of a type goes through `ListOf(PropertyDefinition)`:
`_ListDefinition.insert` applies `PropertyDefinition(self, value)` to every
element, whose only check is `assert isinstance(prop, (Property, Id))`.  A
`RawValue` is an arbitrary value supplied in a definition dict: either a
genuine `Property`/`Id` instance or something else. -/

inductive RawValue where
  | prop (p : DbProp)
  | other (descr : String)
deriving DecidableEq, Repr

def RawValue.isPropInstance : RawValue → Bool
  | RawValue.prop _ => true
  | RawValue.other _ => false

/-- Source `PropertyDefinition(owner, prop)`: assert the value is a `Property` or
`Id` instance and return it unchanged. -/
def PropertyDefinition : RawValue → Except String DbProp
  | RawValue.prop p => Except.ok p
  | RawValue.other d => Except.error ("not a Property or Id: " ++ d)

/-- Construction of the property list of one type (the element-wise factory
application of `_ListDefinition.__init__`; the first failing element
raises). -/
def typePropertiesDef : List RawValue → Except String (List DbProp)
  | [] => Except.ok []
  | r :: rs =>
    match PropertyDefinition r with
    | Except.ok p =>
      match typePropertiesDef rs with
      | Except.ok ps => Except.ok (p :: ps)
      | Except.error e => Except.error e
    | Except.error e => Except.error e

/-- Number of `Id` properties among the properties of a type. -/
def countIds (ps : List DbProp) : Nat :=
  (ps.filter (fun p => match p with | DbProp.id _ _ => true | _ => false)).length

/-! Section: Concrete fixtures (modeled on `testdef` in `test/test_database.py`) -/

def propA : DbProp := DbProp.property "a" "INTEGER" false none false

def propB : DbProp := DbProp.property "b" "INTEGER" false none false

def colA : Column := Column.from_property propA

def colB : Column := Column.from_property propB

def colId : Column := Column.from_property (DbProp.id "_id" true)

def exV0 : VersionDef :=
  { types := [("test", [propA, propB])], indexes := [], transition := none }

def exIdxDef : IndexDef :=
  { on_type := "test", keys := ["a", "b"], unique := false, name := none }

def exV1 : VersionDef :=
  { types := [("test", [DbProp.id "_id" true, propA, propB])]
    indexes := [exIdxDef]
    transition := some { sql := some "ALTER TABLE test RENAME TO _bak_test; --etc"
                         prompt := true
                         reason := "copy test table to accomodate new columns" } }

def exDef : DbDef := ⟨[(0, exV0), (1, exV1)]⟩

/-- A database already stamped at version 0 that still has user content. -/
def exStoreStamped0 : Store :=
  { tables := [{ name := "test", columns := [colA, colB] }]
    indexes := [], metaExists := true, metaRows := [some 0] }

/-- A fresh, empty, never-versioned database. -/
def exStoreFresh : Store :=
  { tables := [], indexes := [], metaExists := true, metaRows := [] }

/-- Pre-existing user content with no tracking table at all. -/
def exStoreUnversioned : Store :=
  { tables := [{ name := "test", columns := [colA, colB] }]
    indexes := [], metaExists := false, metaRows := [] }

/-- A database fully at the target version 1 of `exDef`. -/
def exStoreAtTarget : Store :=
  { tables := [{ name := "test", columns := [colId, colA, colB] }]
    indexes := [exIdxDef.normal], metaExists := true, metaRows := [some 0, some 1] }

/-- Stamped at version 1 with a stale index not declared by version 1. -/
def exStoreStaleIdx : Store :=
  { tables := [{ name := "test", columns := [colId, colA, colB] }]
    indexes := [{ name := "stale", table := "test", columns := ["b"], unique := false }]
    metaExists := true, metaRows := [some 1] }

/-- Version 0 declares table `old`, version 1 declares table `new` only. -/
def exDef2 : DbDef :=
  ⟨[(0, { types := [("old", [propA])], indexes := [], transition := none }),
    (1, { types := [("new", [propA])], indexes := [], transition := none })]⟩

/-- A store for `exDef2` stamped at version 1 with leftovers from version 0. -/
def exStore2 : Store :=
  { tables := [{ name := "old", columns := [colA] }, { name := "new", columns := [colA] }]
    indexes := [], metaExists := true, metaRows := [some 0, some 1] }

/-- One type declaring two `Id` properties. -/
def twoIds : List RawValue :=
  [RawValue.prop (DbProp.id "id1" true), RawValue.prop (DbProp.id "id2" false)]

/-! Section: Helper lemmas -/

theorem init_le_foldl_max (l : List Nat) (init : Nat) : init ≤ l.foldl Nat.max init := by
  induction l generalizing init with
  | nil => exact Nat.le_refl _
  | cons a t ih =>
    exact Nat.le_trans (Nat.le_max_left init a) (ih (Nat.max init a))

theorem le_foldl_max (l : List Nat) (init : Nat) : ∀ x ∈ l, x ≤ l.foldl Nat.max init := by
  induction l generalizing init with
  | nil => intro x hx; cases hx
  | cons a t ih =>
    intro x hx
    rcases List.mem_cons.mp hx with rfl | hx
    · exact Nat.le_trans (Nat.le_max_right init x) (init_le_foldl_max t _)
    · exact ih (Nat.max init a) x hx

theorem foldl_max_mem (l : List Nat) (init : Nat) :
    l.foldl Nat.max init = init ∨ l.foldl Nat.max init ∈ l := by
  induction l generalizing init with
  | nil => exact Or.inl rfl
  | cons a t ih =>
    rw [List.foldl_cons]
    rcases ih (Nat.max init a) with h | h
    · rcases Nat.le_total init a with hle | hle
      · right
        rw [h]
        have hmr : Nat.max init a = a := Nat.max_eq_right hle
        rw [hmr]
        exact List.mem_cons_self a t
      · left
        rw [h]
        exact Nat.max_eq_left hle
    · right
      exact List.mem_cons_of_mem a h

theorem target_mem (d : DbDef) (h : d.versions ≠ []) : target d ∈ d.versionKeys := by
  have hne : d.versionKeys ≠ [] := by
    simpa [DbDef.versionKeys] using h
  rcases foldl_max_mem d.versionKeys 0 with h0 | hmem
  · cases hk : d.versionKeys with
    | nil => exact absurd hk hne
    | cons k ks =>
      have hkmem : k ∈ d.versionKeys := by
        rw [hk]; exact List.mem_cons_self k ks
      have hle : k ≤ target d := le_foldl_max _ 0 k hkmem
      have ht0 : target d = 0 := h0
      have hk0 : k = 0 := Nat.le_antisymm (ht0 ▸ hle) (Nat.zero_le k)
      rw [ht0, ← hk0]
      exact List.mem_cons_self k ks
  · exact hmem

theorem storeVersion_metaExists {s : Store} {v : Nat} (h : storeVersion s = some v) :
    s.metaExists = true := by
  by_cases hme : s.metaExists
  · exact hme
  · rw [storeVersion, if_neg hme] at h
    cases h

/-! Section: Claim theorems -/

/-- Claim C8, confirmed.  `Updater.needed` is `True` exactly when the stamped
current version is unset or strictly below the target, where the target is
the maximum version number declared in the definition (for any definition
with at least one declared version). -/
theorem C8_needed_iff (d : DbDef) (s : Store) (h : d.versions ≠ []) :
    (needed d s = true ↔
      storeVersion s = none ∨ ∃ v, storeVersion s = some v ∧ v < target d)
    ∧ target d ∈ d.versionKeys
    ∧ (∀ k ∈ d.versionKeys, k ≤ target d) := by
  refine ⟨?_, target_mem d h, fun k hk => le_foldl_max _ 0 k hk⟩
  cases hv : storeVersion s with
  | none => simp [needed, hv]
  | some v => simp [needed, hv]

theorem C8_witness : needed exDef exStoreStamped0 = true :=
  ((C8_needed_iff exDef exStoreStamped0 (by decide)).1).mpr
    (Or.inr ⟨0, by decide, by decide⟩)

/-- Claim C9, confirmed.  When the stamped version is unset (the fresh
jumpstart case), `Updater.agreed` is `True` for every consent oracle and the
consent prompt is never reached, no matter which declared versions carry
`prompt=true` transitions: `_transitions` is empty when `_version is None`. -/
theorem C9_jumpstart_no_consent (d : DbDef) (s : Store) (consent : List String → Bool)
    (h : storeVersion s = none) :
    agreed d consent (storeVersion s) = true
    ∧ consentRequested d (storeVersion s) = false := by
  rw [h]
  exact ⟨rfl, rfl⟩

theorem C9_witness :
    agreed exDef (fun _ => false) (storeVersion exStoreFresh) = true
    ∧ consentRequested exDef (storeVersion exStoreFresh) = false :=
  C9_jumpstart_no_consent exDef exStoreFresh (fun _ => false) (by decide)

/-- Claim C10, confirmed.  `DatabaseController.require` checks for duplicate
names before performing any registration, so on the `ValueError` path the
registry is returned unchanged; and the error occurs exactly when some name
of the argument is already registered. -/
theorem C10_require_atomic (registry defdict : List (String × DbDef)) :
    ((require registry defdict).1 ≠ none → (require registry defdict).2 = registry)
    ∧ ((require registry defdict).1 ≠ none ↔
        ∃ k, k ∈ registry.map Prod.fst ∧ k ∈ defdict.map Prod.fst) := by
  cases hX : (registry.map Prod.fst).filter
      (fun k => decide (k ∈ defdict.map Prod.fst)) with
  | nil =>
    have h1 : (require registry defdict).1 = none := by
      simp [require, hX]
    refine ⟨fun hne => absurd h1 hne, ?_⟩
    constructor
    · intro hne; exact absurd h1 hne
    · rintro ⟨k, hk1, hk2⟩
      have hmem : k ∈ (registry.map Prod.fst).filter
          (fun k => decide (k ∈ defdict.map Prod.fst)) :=
        List.mem_filter.mpr ⟨hk1, by simpa using hk2⟩
      rw [hX] at hmem
      cases hmem
  | cons a l =>
    have h1 : (require registry defdict).1 = some (a :: l) := by
      simp [require, hX]
    have h2 : (require registry defdict).2 = registry := by
      simp [require, hX]
    refine ⟨fun _ => h2, ?_⟩
    constructor
    · intro _
      have hmem : a ∈ (registry.map Prod.fst).filter
          (fun k => decide (k ∈ defdict.map Prod.fst)) := by
        rw [hX]; exact List.mem_cons_self a l
      rcases List.mem_filter.mp hmem with ⟨ha1, ha2⟩
      exact ⟨a, ha1, by simpa using ha2⟩
    · intro _
      rw [h1]
      simp

theorem C10_witness : (require [("a", exDef)] [("a", exDef2)]).2 = [("a", exDef)] :=
  (C10_require_atomic [("a", exDef)] [("a", exDef2)]).1 (by decide)

/-- Claim C4, counterexample.  Constructing the property list of a type with two `Id`
properties succeeds: `PropertyDefinition` validates only that each value is a
`Property` or `Id` instance, so no configuration error is raised at
definition-construction time. -/
theorem C4_counterexample :
    typePropertiesDef twoIds
      = Except.ok [DbProp.id "id1" true, DbProp.id "id2" false]
    ∧ countIds [DbProp.id "id1" true, DbProp.id "id2" false] = 2 :=
  ⟨rfl, rfl⟩

/-- Claim C4, corrected.  Definition construction accepts any list of genuine
`Property`/`Id` values unchanged, however many `Id`s it contains; duplicate
`Id`s are not rejected at definition-construction time (only non-`Property`/
`Id` values fail the `isinstance` assertion). -/
theorem C4_no_duplicate_id_check (raws : List RawValue)
    (h : ∀ r ∈ raws, r.isPropInstance = true) :
    typePropertiesDef raws
      = Except.ok (raws.filterMap
          (fun r => match r with
            | RawValue.prop p => some p
            | RawValue.other _ => none)) := by
  induction raws with
  | nil => rfl
  | cons r rs ih =>
    cases r with
    | prop p =>
      have hrs : ∀ x ∈ rs, x.isPropInstance = true :=
        fun x hx => h x (List.mem_cons_of_mem _ hx)
      simp [typePropertiesDef, PropertyDefinition, ih hrs, List.filterMap_cons]
    | other dd =>
      have := h _ (List.mem_cons_self _ rs)
      simp [RawValue.isPropInstance] at this

theorem foldl_createOrAlterTable_meta (ts : List Table) (s : Store) :
    (ts.foldl (fun st t => createOrAlterTable t st) s).metaRows = s.metaRows
    ∧ (ts.foldl (fun st t => createOrAlterTable t st) s).metaExists = s.metaExists
    ∧ (ts.foldl (fun st t => createOrAlterTable t st) s).indexes = s.indexes := by
  induction ts generalizing s with
  | nil => exact ⟨rfl, rfl, rfl⟩
  | cons t ts ih =>
    rw [List.foldl_cons]
    rcases ih (createOrAlterTable t s) with ⟨h1, h2, h3⟩
    refine ⟨?_, ?_, ?_⟩ <;>
      · first
        | rw [h1] | rw [h2] | rw [h3]
        unfold createOrAlterTable
        split <;> rfl

theorem autoupdate_meta (d : DbDef) (v : Nat) (s : Store) :
    (autoupdateWithinVersion d v s).metaRows = s.metaRows
    ∧ (autoupdateWithinVersion d v s).metaExists = s.metaExists := by
  unfold autoupdateWithinVersion autoindexes autotables
  exact ⟨(foldl_createOrAlterTable_meta _ s).1, (foldl_createOrAlterTable_meta _ s).2.1⟩

theorem maxVersion_append_some (l : List (Option Nat)) (x : Nat) :
    maxVersion (l ++ [some x])
      = some (match maxVersion l with
          | none => x
          | some m => Nat.max m x) := by
  unfold maxVersion
  rw [List.filterMap_append, List.foldl_append]
  have hfm : List.filterMap (fun a => id a) [some x] = [x] := rfl
  rw [hfm]
  cases (List.filterMap (fun a => id a) l).foldl
      (fun acc v => match acc with
        | none => some v
        | some m => some (Nat.max m v)) none with
  | none => rfl
  | some m => rfl

/-- Claim C3, counterexample.  A database already stamped at version 0 that
still has user content: constructing an `Updater` over it inserts a second
version-0 tracking row, because `_init_meta` guards the stamp with `if not
self._version:` and Python treats version `0` as falsy. -/
theorem C3_counterexample :
    storeVersion exStoreStamped0 = some 0
    ∧ hasUserContent exStoreStamped0 = true
    ∧ (updaterConstruct exDef exStoreStamped0).metaRows = [some 0, some 0]
    ∧ exStoreStamped0.metaRows = [some 0] := by
  refine ⟨rfl, rfl, ?_, rfl⟩
  rfl

/-- Claim C3, corrected.  Construction re-stamps version 0 whenever user
content exists and the stamped version is unset *or 0* (Python falsiness of
`0`): for a database stamped at 0 with content, each construction appends one
more version-0 tracking row (leaving the set of distinct stamped version
numbers unchanged); for a database stamped at any version `v ≥ 1`, no
tracking row is inserted by construction. -/
theorem C3_restamp_behavior (d : DbDef) (s : Store) (v : Nat)
    (hc : hasUserContent s = true) (hv : storeVersion s = some v) :
    (updaterConstruct d s).metaRows
      = if v = 0 then s.metaRows ++ [some 0] else s.metaRows := by
  have hme : s.metaExists = true := storeVersion_metaExists hv
  have hmax : maxVersion s.metaRows = some v := by
    unfold storeVersion at hv
    rw [hme] at hv
    simpa using hv
  by_cases h0 : v = 0
  · subst h0
    have hcond : storeVersion s = none ∨ storeVersion s = some 0 := Or.inr hv
    have hinit : initMeta s = setversion (some 0) s := by
      unfold initMeta
      simp [hme, hc, hcond]
    have hver : storeVersion (setversion (some 0) s) = some 0 := by
      show (if s.metaExists = true then maxVersion (s.metaRows ++ [some 0])
        else none) = some 0
      rw [hme, if_pos rfl, maxVersion_append_some, hmax]
      rfl
    unfold updaterConstruct
    simp only [hinit, hver]
    rw [(autoupdate_meta d 0 (setversion (some 0) s)).1]
    simp [setversion]
  · have hcond : ¬(storeVersion s = none ∨ storeVersion s = some 0) := by
      rw [hv]
      rintro (h | h)
      · cases h
      · exact h0 (Option.some.inj h)
    have hinit : initMeta s = s := by
      unfold initMeta
      simp [hme, hc, hcond]
    unfold updaterConstruct
    simp only [hinit, hv]
    rw [(autoupdate_meta d v s).1]
    simp [h0]

theorem C3_witness :
    (updaterConstruct exDef exStoreStamped0).metaRows
      = if 0 = 0 then exStoreStamped0.metaRows ++ [some 0]
        else exStoreStamped0.metaRows :=
  C3_restamp_behavior exDef exStoreStamped0 0 (by decide) (by decide)

/-- Claim C2, counterexample.  `exDef2` declares table `old` in version 0 and
only `new` in version 1; on a store stamped at version 1, `reset()` drops
only the tables of version 1, so `old` — declared in a historical version —
survives, contradicting "drops every table declared in any version". -/
theorem C2_counterexample :
    storeVersion exStore2 = some 1
    ∧ "old" ∈ tablesOfAllVersions exDef2
    ∧ (reset exDef2 exStore2).tables.map Table.name = ["old"] := by
  refine ⟨rfl, ?_, ?_⟩ <;> decide

/-- Claim C2, corrected.  When the stamped version is set to `v`, `reset()`
drops exactly the tables (and with them their indexes) declared by version
`v` — not those of other historical versions — and drops and recreates the
tracking table and clears the stamped version to unset, all inside one
transaction; the all-versions sweep runs only when the stamped version is
unset. -/
theorem C2_reset_scope (d : DbDef) (s : Store) (v : Nat)
    (hv : storeVersion s = some v) :
    (reset d s).tables
        = s.tables.filter (fun t => decide (t.name ∉ tablesOfVersion d v))
    ∧ (reset d s).indexes
        = s.indexes.filter (fun i => decide (i.table ∉ tablesOfVersion d v))
    ∧ storeVersion (reset d s) = none
    ∧ (reset d s).metaExists = true
    ∧ (reset d s).metaRows = [none] := by
  unfold reset
  rw [hv]
  exact ⟨rfl, rfl, rfl, rfl, rfl⟩

theorem C2_witness :
    (reset exDef2 exStore2).tables
      = exStore2.tables.filter
          (fun t => decide (t.name ∉ tablesOfVersion exDef2 1))
    ∧ storeVersion (reset exDef2 exStore2) = none :=
  ⟨(C2_reset_scope exDef2 exStore2 1 (by decide)).1,
   (C2_reset_scope exDef2 exStore2 1 (by decide)).2.2.1⟩

theorem C4_witness :
    typePropertiesDef twoIds
      = Except.ok (twoIds.filterMap
          (fun r => match r with
            | RawValue.prop p => some p
            | RawValue.other _ => none)) :=
  C4_no_duplicate_id_check twoIds (by decide)

/-- Claim C6, confirmed.  Reconciling an existing table: every live column
survives unchanged (lookups by any predicate that hits the live layout are
unaffected, so live columns absent from the definition, and columns whose
normalized forms differ, are never dropped or modified — they are only
logged); the only additions are the declared columns whose names are missing
from the live layout, each of which is appended (`ALTER TABLE ... ADD
COLUMN`). -/
theorem C6_add_only_reconciliation (existing declared : List Column) :
    (∀ c ∈ existing, c ∈ addMissingColumns existing declared)
    ∧ (∀ p : Column → Bool, (existing.find? p).isSome →
        (addMissingColumns existing declared).find? p = existing.find? p)
    ∧ (∀ c ∈ addMissingColumns existing declared,
        c ∈ existing ∨ (c ∈ declared ∧ ∀ e ∈ existing, e.name ≠ c.name))
    ∧ (∀ c ∈ declared, (∀ e ∈ existing, e.name ≠ c.name) →
        c ∈ addMissingColumns existing declared) := by
  refine ⟨?_, ?_, ?_, ?_⟩
  · intro c hc
    exact List.mem_append.mpr (Or.inl hc)
  · intro p hp
    unfold addMissingColumns
    rw [List.find?_append]
    cases h : existing.find? p with
    | none => rw [h] at hp; cases hp
    | some c => rfl
  · intro c hc
    rcases List.mem_append.mp hc with h | h
    · exact Or.inl h
    · rcases List.mem_filter.mp h with ⟨h1, h2⟩
      refine Or.inr ⟨h1, fun e he heq => ?_⟩
      have : existing.any (fun e => decide (e.name = c.name)) = true :=
        List.any_eq_true.mpr ⟨e, he, by simpa using heq⟩
      simp [this] at h2
  · intro c hc hmiss
    refine List.mem_append.mpr (Or.inr (List.mem_filter.mpr ⟨hc, ?_⟩))
    simp only [Bool.not_eq_true', List.any_eq_false, decide_eq_true_eq,
      decide_eq_false_iff_not]
    intro e he
    exact hmiss e he

theorem C6_witness :
    colA ∈ addMissingColumns [colA] [colB]
    ∧ colB ∈ addMissingColumns [colA] [colB] :=
  ⟨(C6_add_only_reconciliation [colA] [colB]).1 colA (by decide),
   (C6_add_only_reconciliation [colA] [colB]).2.2.2 colB (by decide) (by decide)⟩

theorem mem_createMissingIndexes (defined : List IndexNormal) :
    ∀ (store : List IndexNormal) (i : IndexNormal),
      i ∈ createMissingIndexes store defined ↔ i ∈ store ∨ i ∈ defined := by
  induction defined with
  | nil =>
    intro store i
    simp [createMissingIndexes]
  | cons dd ds ih =>
    intro store i
    unfold createMissingIndexes at ih ⊢
    rw [List.foldl_cons]
    by_cases hd : dd ∈ store
    · rw [if_pos hd, ih]
      constructor
      · rintro (h | h)
        · exact Or.inl h
        · exact Or.inr (List.mem_cons_of_mem _ h)
      · rintro (h | h)
        · exact Or.inl h
        · rcases List.mem_cons.mp h with rfl | h2
          · exact Or.inl hd
          · exact Or.inr h2
    · rw [if_neg hd, ih]
      simp only [List.mem_append, List.mem_singleton, List.mem_cons]
      tauto

theorem mem_foldl_dropByName (drops : List IndexNormal) :
    ∀ (acc : List IndexNormal) (j : IndexNormal),
      j ∈ drops.foldl (fun st i => st.filter (fun k => decide (k.name ≠ i.name))) acc
        ↔ j ∈ acc ∧ ∀ i ∈ drops, j.name ≠ i.name := by
  induction drops with
  | nil =>
    intro acc j
    simp
  | cons dd ds ih =>
    intro acc j
    rw [List.foldl_cons, ih]
    simp only [List.mem_filter, decide_eq_true_eq, List.mem_cons]
    constructor
    · rintro ⟨⟨hj, hname⟩, hrest⟩
      refine ⟨hj, fun i hi => ?_⟩
      rcases hi with rfl | hi
      · exact hname
      · exact hrest i hi
    · rintro ⟨hj, hall⟩
      exact ⟨⟨hj, hall dd (Or.inl rfl)⟩, fun i hi => hall i (Or.inr hi)⟩

theorem mem_dropUndefinedIndexes (store defined : List IndexNormal)
    (j : IndexNormal) :
    j ∈ dropUndefinedIndexes store defined ↔
      j ∈ store ∧ ∀ i ∈ store, i ∉ defined → j.name ≠ i.name := by
  unfold dropUndefinedIndexes
  rw [mem_foldl_dropByName]
  constructor
  · rintro ⟨hj, h⟩
    refine ⟨hj, fun i hi hnd => ?_⟩
    exact h i (List.mem_filter.mpr ⟨hi, by simpa using hnd⟩)
  · rintro ⟨hj, h⟩
    refine ⟨hj, fun i hi => ?_⟩
    rcases List.mem_filter.mp hi with ⟨hi1, hi2⟩
    exact h i hi1 (by simpa using hi2)

/-- Claim C5, confirmed.  `Updater._autoindexes` makes the index set of the store
exactly the declared set of the version — creating every declared index
absent from the store and dropping every store index absent from the
declared set — while leaving tables and the version tracking untouched; in
particular an index removed from the declaration is dropped by the next run.
The hypothesis says index names determine their normalized shape across the
store and the declaration (names are unique in a SQL schema). -/
theorem C5_autoindexes_sync (d : DbDef) (v : Nat) (s : Store)
    (hinj : ∀ i ∈ s.indexes ++ definedIndexNormals d v,
      ∀ j ∈ s.indexes ++ definedIndexNormals d v, i.name = j.name → i = j) :
    (∀ i, i ∈ (autoindexes d v s).indexes ↔ i ∈ definedIndexNormals d v)
    ∧ (∀ i ∈ s.indexes, i ∉ definedIndexNormals d v →
        i ∉ (autoindexes d v s).indexes)
    ∧ (autoindexes d v s).tables = s.tables
    ∧ (autoindexes d v s).metaRows = s.metaRows
    ∧ (autoindexes d v s).metaExists = s.metaExists := by
  have hmem : ∀ i, i ∈ (autoindexes d v s).indexes ↔ i ∈ definedIndexNormals d v := by
    intro i
    show i ∈ dropUndefinedIndexes
        (createMissingIndexes s.indexes (definedIndexNormals d v))
        (definedIndexNormals d v) ↔ _
    rw [mem_dropUndefinedIndexes]
    constructor
    · rintro ⟨hi, hno⟩
      by_contra hnd
      exact hno i hi hnd rfl
    · intro hid
      have hiac : i ∈ createMissingIndexes s.indexes (definedIndexNormals d v) :=
        (mem_createMissingIndexes _ s.indexes i).mpr (Or.inr hid)
      refine ⟨hiac, ?_⟩
      intro x hx hxnd hname
      have hx' : x ∈ s.indexes ∨ x ∈ definedIndexNormals d v :=
        (mem_createMissingIndexes _ s.indexes x).mp hx
      have hxs : x ∈ s.indexes := hx'.resolve_right hxnd
      have heq : i = x :=
        hinj i (List.mem_append.mpr (Or.inr hid)) x
          (List.mem_append.mpr (Or.inl hxs)) hname
      exact hxnd (heq ▸ hid)
  exact ⟨hmem, fun i _ hind hcontra => hind ((hmem i).mp hcontra), rfl, rfl, rfl⟩

theorem C5_witness :
    (({ name := "stale", table := "test", columns := ["b"], unique := false } :
        IndexNormal) ∈ (autoindexes exDef 1 exStoreStaleIdx).indexes
      ↔ ({ name := "stale", table := "test", columns := ["b"], unique := false } :
        IndexNormal) ∈ definedIndexNormals exDef 1)
    ∧ (autoindexes exDef 1 exStoreStaleIdx).tables = exStoreStaleIdx.tables :=
  ⟨(C5_autoindexes_sync exDef 1 exStoreStaleIdx (by decide)).1 _,
   (C5_autoindexes_sync exDef 1 exStoreStaleIdx (by decide)).2.2.1⟩

/-- Claim C1, counterexample.  A database stamped at version 0: the
incremental path of `run()` re-applies version 0 itself, because `_missing_versions`
computes its lower bound as `(self._version or -1) + 1` and Python treats
version `0` as falsy, giving lower bound 0 instead of 1.  The claim requires
the applied versions to be exactly those strictly greater than 0. -/
theorem C1_counterexample :
    runVersionOrder exDef (some 0) = [0, 1]
    ∧ ¬(∀ k ∈ runVersionOrder exDef (some 0), 0 < k) := by
  refine ⟨by decide, by decide⟩

/-- Claim C1, corrected.  For a stamped version `v ≥ 1`, `run()` applies
exactly the declared versions strictly greater than `v` and at most the
target, in strictly ascending order, as a per-version block of transition
script (when one with a script is declared), table reconciliation, index
reconciliation, stamp, verify; but for `v = 0` the lower bound degenerates to
0 (Python falsiness of `0` in `(self._version or -1) + 1`), so version 0
itself is re-applied as well. -/
theorem C1_version_application_order (d : DbDef) (v : Nat)
    (hkeys : d.versionKeys.Nodup) :
    List.Sorted (· < ·) (runVersionOrder d (some v))
    ∧ (∀ k, k ∈ runVersionOrder d (some v) ↔
        k ∈ d.versionKeys ∧ missingLowerBound (some v) ≤ k ∧ k ≤ target d)
    ∧ (1 ≤ v → ∀ k, k ∈ runVersionOrder d (some v) ↔
        k ∈ d.versionKeys ∧ v < k ∧ k ≤ target d)
    ∧ runTrace d (some v)
        = (runVersionOrder d (some v)).flatMap (fun k => versionBlock d k) := by
  have hmem : ∀ k, k ∈ runVersionOrder d (some v) ↔
      k ∈ d.versionKeys ∧ missingLowerBound (some v) ≤ k ∧ k ≤ target d := by
    intro k
    show k ∈ missingVersionKeys d (some v) ↔ _
    unfold missingVersionKeys
    rw [List.mem_insertionSort, List.mem_filter]
    simp only [decide_eq_true_eq]
  refine ⟨?_, hmem, ?_, rfl⟩
  · have hsortedle : List.Sorted (· ≤ ·) (missingVersionKeys d (some v)) :=
      List.sorted_insertionSort _ _
    have hnodup : (missingVersionKeys d (some v)).Nodup :=
      (List.perm_insertionSort _ _).nodup_iff.mpr (hkeys.filter _)
    exact hsortedle.lt_of_le hnodup
  · intro hv1 k
    have hlb : missingLowerBound (some v) = v + 1 := by
      cases v with
      | zero => omega
      | succ n => rfl
    rw [hmem k, hlb]
    exact Iff.rfl

theorem C1_witness :
    List.Sorted (· < ·) (runVersionOrder exDef (some 0))
    ∧ (1 ∈ runVersionOrder exDef (some 1) ↔
        1 ∈ exDef.versionKeys ∧ 1 < 1 ∧ 1 ≤ target exDef) :=
  ⟨(C1_version_application_order exDef 0 (by decide)).1,
   (C1_version_application_order exDef 1 (by decide)).2.2.1 (by decide) 1⟩

/-- Claim C7, counterexample.  A database with pre-existing unversioned user
content and a definition whose pending transition prompts: with autoconsent
off and consent declined, `ensure_requirements` returns `False` and runs no
update, but the database state is *not* unchanged — constructing the
`Updater` already created the tracking table and stamped implicit version 0
before consent was ever consulted. -/
theorem C7_counterexample :
    (ensure_requirements exDef false (fun _ => false) exStoreUnversioned).met = false
    ∧ (ensure_requirements exDef false (fun _ => false) exStoreUnversioned).ranUpdate
        = false
    ∧ (ensure_requirements exDef false (fun _ => false) exStoreUnversioned).store
        ≠ exStoreUnversioned := by
  refine ⟨by decide, by decide, by decide⟩

/-- Claim C7, corrected.  `ensure_requirements`: when no update is needed it
returns `True` without running any update; when an update is needed with
autoconsent off and consent declined it returns `False` and runs no update,
the store being changed only by the construction-time
initialization (tracking-table creation, implicit version-0 stamping,
within-version reconciliation), never by a version update; and under
autoconsent the consent prompt is never reached (Python `or`
short-circuits `autoconsent or update.agreed`). -/
theorem C7_consent_flow (d : DbDef) (autoconsent : Bool)
    (consent : List String → Bool) (s : Store) :
    (needed d (updaterConstruct d s) = false →
      ensure_requirements d autoconsent consent s
        = { met := true, store := updaterConstruct d s,
            ranUpdate := false, askedConsent := false })
    ∧ (autoconsent = false →
        agreed d consent (storeVersion (updaterConstruct d s)) = false →
        needed d (updaterConstruct d s) = true →
      ensure_requirements d autoconsent consent s
        = { met := false, store := updaterConstruct d s, ranUpdate := false,
            askedConsent := consentRequested d (storeVersion (updaterConstruct d s)) })
    ∧ (autoconsent = true →
        (ensure_requirements d autoconsent consent s).askedConsent = false) := by
  refine ⟨?_, ?_, ?_⟩
  · intro hn
    unfold ensure_requirements
    simp [hn]
  · intro hac hag hn
    unfold ensure_requirements
    simp [hn, hac, hag]
  · intro hac
    unfold ensure_requirements
    by_cases hn : needed d (updaterConstruct d s) <;> simp [hn, hac]

theorem C7_witness :
    ensure_requirements exDef false (fun _ => false) exStoreUnversioned
      = { met := false, store := updaterConstruct exDef exStoreUnversioned,
          ranUpdate := false,
          askedConsent := consentRequested exDef
            (storeVersion (updaterConstruct exDef exStoreUnversioned)) }
    ∧ (ensure_requirements exDef true (fun _ => false) exStoreUnversioned).askedConsent
        = false
    ∧ ensure_requirements exDef false (fun _ => false) exStoreAtTarget
      = { met := true, store := updaterConstruct exDef exStoreAtTarget,
          ranUpdate := false, askedConsent := false } :=
  ⟨(C7_consent_flow exDef false (fun _ => false) exStoreUnversioned).2.1
      rfl (by decide) (by decide),
   (C7_consent_flow exDef true (fun _ => false) exStoreUnversioned).2.2 rfl,
   (C7_consent_flow exDef false (fun _ => false) exStoreAtTarget).1 (by decide)⟩

end CherryMusic
